import Mathlib

/-!
# The configuration parsing pipeline of `libcore/shared/parser.go`

A shallow embedding of `ParseConfig` and of the three format parsers
`parseSingboxConfig`, `parseV2rayConfig` and `parseClashConfig`.

The libraries the file calls (`option.Options.UnmarshalJSON`,
`ray2sing.Ray2Singbox`, `yaml.Unmarshal`, `convert.Clash2sing`,
`convert.Patch`, `libbox.CheckConfig`, `os.ReadFile`, `os.WriteFile`) are not
part of the repository; they are parameters of the embedding.  Every call of
one of them, every line printed and every turn of the parser loop is recorded
in a trace, so that statements about which calls happen, in which order and on
which arguments can be made about the code.
-/

set_option linter.unusedVariables false

namespace Libcore

/-- Contents of a Go `[]byte`.  The `nil` slice is the empty list. -/
abbrev Bytes := List UInt8

/-- Contents of a Go `string`: a sequence of bytes. -/
abbrev GoString := List UInt8

/-- Go conversion `string(b)` of a byte slice: the same bytes. -/
def toGoString (b : Bytes) : GoString := b

/-- Go conversion `[]byte(s)` of a string: the same bytes. -/
def toBytes (s : GoString) : Bytes := s

/-- The lines `parser.go` prints with `fmt.Printf`, one constructor per format string. -/
inductive LogLine (ε : Type) where
  | parserSuccess (index : Nat)
  | v2rayError (e : ε)
  | clashUnmarshalError (e : ε)
  | clashConvertError (e : ε)
  | clashPatchError (e : ε)
  | singboxUnmarshalError (e : ε)
  deriving DecidableEq, Repr

/-- Observable steps of one run: `ε` is the type of Go errors, `κ` is `clash.Clash`,
`σ` is the converted sing-box fragment returned by `convert.Clash2sing`. -/
inductive Event (ε κ σ : Type) where
  | readFile (name : String)
  | parser (index : Nat) (content : Bytes) (debug : Bool)
  | unmarshalJSON (content : Bytes)
  | ray2Singbox (s : GoString)
  | yamlUnmarshal (content : Bytes)
  | clash2sing (c : κ)
  | patch (template : Bytes) (s : σ) (incl : GoString) (excl : GoString) (ext : List GoString)
  | checkConfig (s : GoString)
  | writeFile (name : String) (data : Bytes) (perm : Nat)
  | printf (l : LogLine ε)
  deriving DecidableEq, Repr

/-- The libraries called by the parsers and by the validation step, with the embedded
template `configByte` (the file `config.json.template`, which is not in the sources).
A Go result `(v, err)` is a pair whose second component is `none` for a `nil` error. -/
structure Collab (ε κ σ : Type) where
  /-- The bytes of `configByte`. -/
  configByte : Bytes
  /-- The error of `option.Options.UnmarshalJSON`. -/
  unmarshalJSON : Bytes → Option ε
  /-- The result of `ray2sing.Ray2Singbox`. -/
  ray2Singbox : GoString → GoString × Option ε
  /-- The value `clash.Clash{}`. -/
  clashZero : κ
  /-- The call `yaml.Unmarshal(content, &clashConfig)`: the value left in `clashConfig`, and the error. -/
  yamlUnmarshal : Bytes → κ → κ × Option ε
  /-- The result of `convert.Clash2sing`. -/
  clash2sing : κ → σ × Option ε
  /-- The result of `convert.Patch`. -/
  patch : Bytes → σ → GoString → GoString → List GoString → Bytes × Option ε
  /-- The error of `libbox.CheckConfig`. -/
  checkConfig : GoString → Option ε

/-- The two file operations of package `os` that `ParseConfig` uses, over a file
system state `Φ`. -/
structure OS (ε Φ : Type) where
  /-- The result of `os.ReadFile`. -/
  readFile : Φ → String → Bytes × Option ε
  /-- The call `os.WriteFile`: the file system it leaves, and the error. -/
  writeFile : Φ → String → Bytes → Nat → Φ × Option ε

/-- What a parser returns, `(config, err)`, with the steps it took. -/
structure ParserResult (ε κ σ : Type) where
  config : Bytes
  err : Option ε
  trace : List (Event ε κ σ)

/-- What `ParseConfig` returns, with the file system it leaves and the steps it took. -/
structure Outcome (ε κ σ Φ : Type) where
  err : Option ε
  fs : Φ
  trace : List (Event ε κ σ)

variable {ε κ σ Φ : Type}

/-- The function `parseV2rayConfig`. -/
def parseV2rayConfig (c : Collab ε κ σ) (content : Bytes) (debug : Bool) : ParserResult ε κ σ :=
  let r := c.ray2Singbox (toGoString content)
  match r.2 with
  | some err =>
    { config := [], err := some err,
      trace := [.ray2Singbox (toGoString content), .printf (.v2rayError err)] }
  | none =>
    { config := toBytes r.1, err := none, trace := [.ray2Singbox (toGoString content)] }

/-- The function `parseClashConfig`. -/
def parseClashConfig (c : Collab ε κ σ) (content : Bytes) (debug : Bool) : ParserResult ε κ σ :=
  let u := c.yamlUnmarshal content c.clashZero
  let clashConfig := u.1
  match u.2 with
  | some err =>
    { config := [], err := some err,
      trace := [.yamlUnmarshal content, .printf (.clashUnmarshalError err)] }
  | none =>
    let s := c.clash2sing clashConfig
    let sbConfig := s.1
    match s.2 with
    | some err =>
      { config := [], err := some err,
        trace := [.yamlUnmarshal content, .clash2sing clashConfig,
                  .printf (.clashConvertError err)] }
    | none =>
      let output := c.configByte
      let p := c.patch output sbConfig [] [] []
      match p.2 with
      | some err =>
        { config := [], err := some err,
          trace := [.yamlUnmarshal content, .clash2sing clashConfig,
                    .patch output sbConfig [] [] [], .printf (.clashPatchError err)] }
      | none =>
        { config := p.1, err := none,
          trace := [.yamlUnmarshal content, .clash2sing clashConfig,
                    .patch output sbConfig [] [] []] }

/-- The function `parseSingboxConfig`. -/
def parseSingboxConfig (c : Collab ε κ σ) (content : Bytes) (debug : Bool) : ParserResult ε κ σ :=
  match c.unmarshalJSON content with
  | some err =>
    { config := [], err := some err,
      trace := [.unmarshalJSON content, .printf (.singboxUnmarshalError err)] }
  | none =>
    { config := content, err := none, trace := [.unmarshalJSON content] }

/-- The variable `configParsers`. -/
def configParsers (c : Collab ε κ σ) : List (Bytes → Bool → ParserResult ε κ σ) :=
  [parseSingboxConfig c, parseV2rayConfig c, parseClashConfig c]

/-- The loop `for index, parser := range configParsers` of `ParseConfig` with its
final `return parseError`: `ps` are the parsers still to try, `index` is the position of the
first of them, `parseError` is the variable of that name. -/
def parseLoop (c : Collab ε κ σ) (os : OS ε Φ) (fs : Φ) (path : String) (content : Bytes)
    (debug : Bool) :
    List (Bytes → Bool → ParserResult ε κ σ) → Nat → Option ε → Outcome ε κ σ Φ
  | [], _, parseError => { err := parseError, fs := fs, trace := [] }
  | parser :: ps, index, _ =>
    let r := parser content debug
    match r.err with
    | none =>
      match c.checkConfig (toGoString r.config) with
      | some err =>
        { err := some err, fs := fs,
          trace := .parser index content debug :: r.trace ++
            [.printf (.parserSuccess index), .checkConfig (toGoString r.config)] }
      | none =>
        let w := os.writeFile fs path r.config 0o777
        { err := w.2, fs := w.1,
          trace := .parser index content debug :: r.trace ++
            [.printf (.parserSuccess index), .checkConfig (toGoString r.config),
             .writeFile path r.config 0o777] }
    | some err =>
      let rest := parseLoop c os fs path content debug ps (index + 1) (some err)
      { rest with trace := .parser index content debug :: r.trace ++ rest.trace }

/-- The function `ParseConfig`. -/
def ParseConfig (c : Collab ε κ σ) (os : OS ε Φ) (fs : Φ) (path : String) (tempPath : String)
    (debug : Bool) : Outcome ε κ σ Φ :=
  let rd := os.readFile fs tempPath
  let content := rd.1
  match rd.2 with
  | some err => { err := some err, fs := fs, trace := [.readFile tempPath] }
  | none =>
    let out := parseLoop c os fs path content debug (configParsers c) 0 none
    { out with trace := .readFile tempPath :: out.trace }

/-! ## Reading a trace -/

/-- The turns of the parser loop in a trace: position of the parser and its two arguments. -/
def parserCalls : List (Event ε κ σ) → List (Nat × Bytes × Bool)
  | [] => []
  | .parser i b d :: t => (i, b, d) :: parserCalls t
  | _ :: t => parserCalls t

/-- The arguments of the calls of `libbox.CheckConfig` in a trace. -/
def checkCalls : List (Event ε κ σ) → List GoString
  | [] => []
  | .checkConfig s :: t => s :: checkCalls t
  | _ :: t => checkCalls t

/-- The arguments of the calls of `os.WriteFile` in a trace. -/
def writeCalls : List (Event ε κ σ) → List (String × Bytes × Nat)
  | [] => []
  | .writeFile n b p :: t => (n, b, p) :: writeCalls t
  | _ :: t => writeCalls t

/-- The calls of the libraries behind the parsers and of the validator, the file
operations and the printed lines of a trace: every event but the turns of the loop. -/
def libraryCalls : List (Event ε κ σ) → List (Event ε κ σ)
  | [] => []
  | .parser _ _ _ :: t => libraryCalls t
  | e :: t => e :: libraryCalls t

/-- An event without the value of `debug`, the only place of a trace where it is recorded
being the arguments of a turn of the loop. -/
def eraseDebug : Event ε κ σ → Event ε κ σ
  | .parser i b _ => .parser i b false
  | e => e

/-- The positions of the parsers tried in a trace, in the order they were tried. -/
def parserIndices (t : List (Event ε κ σ)) : List Nat :=
  (parserCalls t).map (fun x => x.1)

/-- The parser at position `k` of `configParsers` returned an error on `(content, debug)`. -/
def failsAt (c : Collab ε κ σ) (content : Bytes) (debug : Bool) (k : Nat) : Prop :=
  ∃ p, (configParsers c)[k]? = some p ∧ (p content debug).err ≠ none

/-- The parser at position `k` of `configParsers` returned `(out, nil)` on `(content, debug)`. -/
def succeedsAt (c : Collab ε κ σ) (content : Bytes) (debug : Bool) (k : Nat) (out : Bytes) : Prop :=
  ∃ p, (configParsers c)[k]? = some p ∧ (p content debug).err = none ∧ (p content debug).config = out

/-- The parser at position `k` is the first of `configParsers` to succeed on `(content, debug)`,
and it returns `out`. -/
def firstSuccessAt (c : Collab ε κ σ) (content : Bytes) (debug : Bool) (k : Nat) (out : Bytes) :
    Prop :=
  (∀ j, j < k → failsAt c content debug j) ∧ succeedsAt c content debug k out

/-! ## A small concrete environment

Stand-ins for the libraries, used to run the embedding on concrete inputs.  They are not
taken from the repository: any other choice of `Collab` and `OS` is covered by the general
statements below. -/

/-- Errors of the concrete environment. -/
inductive DemoErr where
  | notJSON
  | notShareLink
  | notYAML
  | cannotConvert
  | cannotPatch
  | invalidConfig
  | noSuchFile
  | noSpaceLeft
  deriving DecidableEq, Repr

/-- A file system as a list of named files; the first entry of a name is the file. -/
abbrev DemoFS := List (String × Bytes)

/-- Content of the file `name`, if it exists. -/
def fileContent (fs : DemoFS) (name : String) : Option Bytes :=
  match fs.find? (fun f => f.1 == name) with
  | some f => some f.2
  | none => none

/-- Stand-in for `option.Options.UnmarshalJSON`: a document has to open with `{` (byte 123). -/
def demoUnmarshalJSON (b : Bytes) : Option DemoErr :=
  if b.head? = some 123 then none else some .notJSON

/-- Stand-in libraries: a share link opens with `v` (118) and converts to `{` followed by the
link; a rule document opens with `p` (112), fails to convert when it holds `?` (63) and fails to
patch when it holds `#` (35); patching appends the fragment to the template; validation decodes
its argument as `option.Options.UnmarshalJSON` does and rejects a document that holds `!` (33). -/
def demoCollab : Collab DemoErr Bytes Bytes where
  configByte := [123, 125]
  unmarshalJSON := demoUnmarshalJSON
  ray2Singbox := fun s => if s.head? = some 118 then (123 :: s, none) else ([], some .notShareLink)
  clashZero := []
  yamlUnmarshal := fun b z => if b.head? = some 112 then (b, none) else (z, some .notYAML)
  clash2sing := fun k => if 63 ∈ k then ([], some .cannotConvert) else (k, none)
  patch := fun t s _ _ _ => if 35 ∈ s then ([], some .cannotPatch) else (t ++ s, none)
  checkConfig := fun s =>
    match demoUnmarshalJSON (toBytes s) with
    | some e => some e
    | none => if 33 ∈ s then some .invalidConfig else none

/-- Stand-in for package `os` where every write succeeds and replaces the file. -/
def demoOS : OS DemoErr DemoFS where
  readFile := fun fs name =>
    match fileContent fs name with
    | some b => (b, none)
    | none => ([], some .noSuchFile)
  writeFile := fun fs name data _ => ((name, data) :: fs, none)

/-- Stand-in for package `os` on a full disk: `os.WriteFile` opens the file, which truncates
it, and the write that follows fails (the documentation of `os.WriteFile` says that a failure
mid-operation can leave the file in a partially written state). -/
def fullDiskOS : OS DemoErr DemoFS where
  readFile := demoOS.readFile
  writeFile := fun fs name _ _ => ((name, []) :: fs, some .noSpaceLeft)

/-- A file system with one source file at `name` and an earlier configuration at `out.json`. -/
def demoFS (name : String) (content : Bytes) : DemoFS :=
  [(name, content), ("out.json", [123, 49, 125])]

/-! ## Auxiliary facts on traces -/

section Aux

variable (c : Collab ε κ σ) (os : OS ε Φ)

theorem parserCalls_append (a b : List (Event ε κ σ)) :
    parserCalls (a ++ b) = parserCalls a ++ parserCalls b := by
  induction a with
  | nil => rfl
  | cons e t ih => cases e <;> simp [parserCalls, ih]

theorem checkCalls_append (a b : List (Event ε κ σ)) :
    checkCalls (a ++ b) = checkCalls a ++ checkCalls b := by
  induction a with
  | nil => rfl
  | cons e t ih => cases e <;> simp [checkCalls, ih]

theorem writeCalls_append (a b : List (Event ε κ σ)) :
    writeCalls (a ++ b) = writeCalls a ++ writeCalls b := by
  induction a with
  | nil => rfl
  | cons e t ih => cases e <;> simp [writeCalls, ih]

theorem libraryCalls_append (a b : List (Event ε κ σ)) :
    libraryCalls (a ++ b) = libraryCalls a ++ libraryCalls b := by
  induction a with
  | nil => rfl
  | cons e t ih => cases e <;> simp [libraryCalls, ih]

theorem singbox_calls (content : Bytes) (debug : Bool) :
    parserCalls (parseSingboxConfig c content debug).trace = [] ∧
    checkCalls (parseSingboxConfig c content debug).trace = [] ∧
    writeCalls (parseSingboxConfig c content debug).trace = [] := by
  unfold parseSingboxConfig
  split <;> simp [parserCalls, checkCalls, writeCalls]

theorem v2ray_calls (content : Bytes) (debug : Bool) :
    parserCalls (parseV2rayConfig c content debug).trace = [] ∧
    checkCalls (parseV2rayConfig c content debug).trace = [] ∧
    writeCalls (parseV2rayConfig c content debug).trace = [] := by
  unfold parseV2rayConfig
  simp only []
  split <;> simp [parserCalls, checkCalls, writeCalls]

theorem clash_calls (content : Bytes) (debug : Bool) :
    parserCalls (parseClashConfig c content debug).trace = [] ∧
    checkCalls (parseClashConfig c content debug).trace = [] ∧
    writeCalls (parseClashConfig c content debug).trace = [] := by
  unfold parseClashConfig
  simp only []
  split
  · simp [parserCalls, checkCalls, writeCalls]
  · split
    · simp [parserCalls, checkCalls, writeCalls]
    · split <;> simp [parserCalls, checkCalls, writeCalls]

/-- The run of `ParseConfig` after a successful read, by the results of the three parsers. -/
theorem ParseConfig_cases (fs : Φ) (path tempPath : String) (debug : Bool)
    (hread : (os.readFile fs tempPath).2 = none) :
    let content := (os.readFile fs tempPath).1
    let r0 := parseSingboxConfig c content debug
    let r1 := parseV2rayConfig c content debug
    let r2 := parseClashConfig c content debug
    let out := ParseConfig c os fs path tempPath debug
    let done := fun (k : Nat) (r : ParserResult ε κ σ) =>
      (c.checkConfig (toGoString r.config) ≠ none ∧
        out.err = c.checkConfig (toGoString r.config) ∧ out.fs = fs ∧
        parserCalls out.trace = (List.range (k + 1)).map (fun i => (i, content, debug)) ∧
        checkCalls out.trace = [toGoString r.config] ∧ writeCalls out.trace = []) ∨
      (c.checkConfig (toGoString r.config) = none ∧
        out.err = (os.writeFile fs path r.config 0o777).2 ∧
        out.fs = (os.writeFile fs path r.config 0o777).1 ∧
        parserCalls out.trace = (List.range (k + 1)).map (fun i => (i, content, debug)) ∧
        checkCalls out.trace = [toGoString r.config] ∧
        writeCalls out.trace = [(path, r.config, 0o777)])
    (r0.err = none ∧ done 0 r0) ∨
    (r0.err ≠ none ∧ r1.err = none ∧ done 1 r1) ∨
    (r0.err ≠ none ∧ r1.err ≠ none ∧ r2.err = none ∧ done 2 r2) ∨
    (r0.err ≠ none ∧ r1.err ≠ none ∧ r2.err ≠ none ∧ out.err = r2.err ∧ out.fs = fs ∧
      parserCalls out.trace = (List.range 3).map (fun i => (i, content, debug)) ∧
      checkCalls out.trace = [] ∧ writeCalls out.trace = []) := by
  intro content r0 r1 r2 out done
  have e0 := singbox_calls c content debug
  have e1 := v2ray_calls c content debug
  have e2 := clash_calls c content debug
  simp only [out, done, ParseConfig, hread, configParsers, parseLoop]
  cases h0 : (parseSingboxConfig c content debug).err with
  | none =>
    left
    cases hc : c.checkConfig (toGoString (parseSingboxConfig c content debug).config) <;>
      simp [r0, h0, hc, parserCalls, checkCalls, writeCalls, parserCalls_append,
        checkCalls_append, writeCalls_append, e0, List.range_succ, content]
  | some err0 =>
    right
    cases h1 : (parseV2rayConfig c content debug).err with
    | none =>
      left
      cases hc : c.checkConfig (toGoString (parseV2rayConfig c content debug).config) <;>
        simp [r0, r1, h0, h1, hc, parserCalls, checkCalls, writeCalls, parserCalls_append,
          checkCalls_append, writeCalls_append, e0, e1, List.range_succ, content]
    | some err1 =>
      right
      cases h2 : (parseClashConfig c content debug).err with
      | none =>
        left
        cases hc : c.checkConfig (toGoString (parseClashConfig c content debug).config) <;>
          simp [r0, r1, r2, h0, h1, h2, hc, parserCalls, checkCalls, writeCalls,
            parserCalls_append, checkCalls_append, writeCalls_append, e0, e1, e2,
            List.range_succ, content]
      | some err2 =>
        right
        simp [r0, r1, r2, h0, h1, h2, parserCalls, checkCalls, writeCalls,
          parserCalls_append, checkCalls_append, writeCalls_append, e0, e1, e2,
          List.range_succ, content]

theorem singbox_trace_mem (content : Bytes) (debug : Bool) (e : Event ε κ σ)
    (h : e ∈ (parseSingboxConfig c content debug).trace) :
    e = .unmarshalJSON content ∨ ∃ err, e = .printf (.singboxUnmarshalError err) := by
  unfold parseSingboxConfig at h
  split at h
  · simp at h
    rcases h with h | h <;> simp [h]
  · simp at h
    simp [h]

theorem v2ray_trace_mem (content : Bytes) (debug : Bool) (e : Event ε κ σ)
    (h : e ∈ (parseV2rayConfig c content debug).trace) :
    e = .ray2Singbox (toGoString content) ∨ ∃ err, e = .printf (.v2rayError err) := by
  unfold parseV2rayConfig at h
  simp only [] at h
  split at h
  · simp at h
    rcases h with h | h <;> simp [h]
  · simp at h
    simp [h]

theorem failsAt_zero (content : Bytes) (debug : Bool) :
    failsAt c content debug 0 ↔ (parseSingboxConfig c content debug).err ≠ none := by
  simp [failsAt, configParsers]

theorem failsAt_one (content : Bytes) (debug : Bool) :
    failsAt c content debug 1 ↔ (parseV2rayConfig c content debug).err ≠ none := by
  simp [failsAt, configParsers]

theorem failsAt_two (content : Bytes) (debug : Bool) :
    failsAt c content debug 2 ↔ (parseClashConfig c content debug).err ≠ none := by
  simp [failsAt, configParsers]

theorem succeedsAt_zero (content : Bytes) (debug : Bool) (b : Bytes) :
    succeedsAt c content debug 0 b ↔
      (parseSingboxConfig c content debug).err = none ∧
        (parseSingboxConfig c content debug).config = b := by
  simp [succeedsAt, configParsers]

theorem succeedsAt_one (content : Bytes) (debug : Bool) (b : Bytes) :
    succeedsAt c content debug 1 b ↔
      (parseV2rayConfig c content debug).err = none ∧
        (parseV2rayConfig c content debug).config = b := by
  simp [succeedsAt, configParsers]

theorem succeedsAt_two (content : Bytes) (debug : Bool) (b : Bytes) :
    succeedsAt c content debug 2 b ↔
      (parseClashConfig c content debug).err = none ∧
        (parseClashConfig c content debug).config = b := by
  simp [succeedsAt, configParsers]

theorem succeedsAt_lt (content : Bytes) (debug : Bool) (k : Nat) (b : Bytes)
    (h : succeedsAt c content debug k b) : k < 3 := by
  obtain ⟨p, hp, _⟩ := h
  by_contra hk
  have : (configParsers c)[k]? = none := by
    apply List.getElem?_eq_none
    simp [configParsers]; omega
  rw [this] at hp
  cases hp

/-- The parser that is first to succeed, in the three positions. -/
theorem firstSuccessAt_cases (content : Bytes) (debug : Bool) (k : Nat) (b : Bytes) :
    firstSuccessAt c content debug k b ↔
      (k = 0 ∧ (parseSingboxConfig c content debug).err = none ∧
        (parseSingboxConfig c content debug).config = b) ∨
      (k = 1 ∧ (parseSingboxConfig c content debug).err ≠ none ∧
        (parseV2rayConfig c content debug).err = none ∧
        (parseV2rayConfig c content debug).config = b) ∨
      (k = 2 ∧ (parseSingboxConfig c content debug).err ≠ none ∧
        (parseV2rayConfig c content debug).err ≠ none ∧
        (parseClashConfig c content debug).err = none ∧
        (parseClashConfig c content debug).config = b) := by
  constructor
  · rintro ⟨hf, hs⟩
    have hk := succeedsAt_lt c content debug k b hs
    interval_cases k
    · left; exact ⟨rfl, (succeedsAt_zero c content debug b).1 hs⟩
    · right; left
      exact ⟨rfl, (failsAt_zero c content debug).1 (hf 0 (by omega)),
        (succeedsAt_one c content debug b).1 hs⟩
    · right; right
      exact ⟨rfl, (failsAt_zero c content debug).1 (hf 0 (by omega)),
        (failsAt_one c content debug).1 (hf 1 (by omega)),
        (succeedsAt_two c content debug b).1 hs⟩
  · rintro (⟨rfl, h⟩ | ⟨rfl, h0, h⟩ | ⟨rfl, h0, h1, h⟩)
    · exact ⟨fun j hj => absurd hj (by omega), (succeedsAt_zero c content debug b).2 h⟩
    · refine ⟨fun j hj => ?_, (succeedsAt_one c content debug b).2 h⟩
      interval_cases j
      exact (failsAt_zero c content debug).2 h0
    · refine ⟨fun j hj => ?_, (succeedsAt_two c content debug b).2 h⟩
      interval_cases j
      · exact (failsAt_zero c content debug).2 h0
      · exact (failsAt_one c content debug).2 h1

/-- When some parser succeeds, one of them is the first to succeed. -/
theorem firstSuccessAt_of_succeedsAt (content : Bytes) (debug : Bool) (k : Nat) (b : Bytes)
    (h : succeedsAt c content debug k b) : ∃ k1 b1, firstSuccessAt c content debug k1 b1 := by
  have hk := succeedsAt_lt c content debug k b h
  have fc := firstSuccessAt_cases c content debug
  by_cases h0 : (parseSingboxConfig c content debug).err = none
  · exact ⟨0, _, (fc 0 _).2 (Or.inl ⟨rfl, h0, rfl⟩)⟩
  · by_cases h1 : (parseV2rayConfig c content debug).err = none
    · exact ⟨1, _, (fc 1 _).2 (Or.inr (Or.inl ⟨rfl, h0, h1, rfl⟩))⟩
    · by_cases h2 : (parseClashConfig c content debug).err = none
      · exact ⟨2, _, (fc 2 _).2 (Or.inr (Or.inr ⟨rfl, h0, h1, h2, rfl⟩))⟩
      · interval_cases k
        · exact absurd ((succeedsAt_zero c content debug b).1 h).1 h0
        · exact absurd ((succeedsAt_one c content debug b).1 h).1 h1
        · exact absurd ((succeedsAt_two c content debug b).1 h).1 h2

/-- The whole trace of `ParseConfig` after a successful read. -/
theorem ParseConfig_trace (fs : Φ) (path tempPath : String) (debug : Bool)
    (hread : (os.readFile fs tempPath).2 = none) :
    let content := (os.readFile fs tempPath).1
    let r0 := parseSingboxConfig c content debug
    let r1 := parseV2rayConfig c content debug
    let r2 := parseClashConfig c content debug
    let pre0 : List (Event ε κ σ) := [.readFile tempPath, .parser 0 content debug] ++ r0.trace
    let pre1 : List (Event ε κ σ) := pre0 ++ .parser 1 content debug :: r1.trace
    let pre2 : List (Event ε κ σ) := pre1 ++ .parser 2 content debug :: r2.trace
    let fin : Nat → ParserResult ε κ σ → List (Event ε κ σ) := fun k r =>
      [.printf (.parserSuccess k), .checkConfig (toGoString r.config)] ++
        (if (c.checkConfig (toGoString r.config)).isNone then [.writeFile path r.config 0o777]
         else [])
    (ParseConfig c os fs path tempPath debug).trace =
      if r0.err.isNone then pre0 ++ fin 0 r0
      else if r1.err.isNone then pre1 ++ fin 1 r1
      else if r2.err.isNone then pre2 ++ fin 2 r2
      else pre2 := by
  intro content r0 r1 r2 pre0 pre1 pre2 fin
  simp only [pre0, pre1, pre2, fin, ParseConfig, hread, configParsers, parseLoop]
  cases h0 : (parseSingboxConfig c content debug).err with
  | none =>
    cases hc : c.checkConfig (toGoString (parseSingboxConfig c content debug).config) <;>
      simp [r0, h0, hc, content]
  | some err0 =>
    cases h1 : (parseV2rayConfig c content debug).err with
    | none =>
      cases hc : c.checkConfig (toGoString (parseV2rayConfig c content debug).config) <;>
        simp [r0, r1, h0, h1, hc, content]
    | some err1 =>
      cases h2 : (parseClashConfig c content debug).err with
      | none =>
        cases hc : c.checkConfig (toGoString (parseClashConfig c content debug).config) <;>
          simp [r0, r1, r2, h0, h1, h2, hc, content]
      | some err2 =>
        simp [r0, r1, r2, h0, h1, h2, content]

/-- When the read fails, `ParseConfig` returns the error of the read and does nothing else. -/
theorem ParseConfig_read_error (fs : Φ) (path tempPath : String) (debug : Bool) (e : ε)
    (hread : (os.readFile fs tempPath).2 = some e) :
    ParseConfig c os fs path tempPath debug =
      { err := some e, fs := fs, trace := [.readFile tempPath] } := by
  simp [ParseConfig, hread]

/-- A write is the last step of a run and comes right after the validation of the bytes
it writes. -/
theorem ParseConfig_write_is_last (fs : Φ) (path tempPath : String) (debug : Bool)
    (hread : (os.readFile fs tempPath).2 = none) (data : Bytes)
    (hw : writeCalls (ParseConfig c os fs path tempPath debug).trace = [(path, data, 0o777)]) :
    ∃ pre, (ParseConfig c os fs path tempPath debug).trace =
        pre ++ [.checkConfig (toGoString data), .writeFile path data 0o777] ∧
      writeCalls pre = [] ∧ checkCalls pre = [] := by
  have ht := ParseConfig_trace c os fs path tempPath debug hread
  have e0 := singbox_calls c (os.readFile fs tempPath).1 debug
  have e1 := v2ray_calls c (os.readFile fs tempPath).1 debug
  have e2 := clash_calls c (os.readFile fs tempPath).1 debug
  simp only [] at ht
  rw [ht] at hw ⊢
  split_ifs at hw ⊢ with a0 b0 a1 b1 a2 b2
  all_goals
    simp [writeCalls, writeCalls_append, e0, e1, e2] at hw
  · subst hw
    exact ⟨[.readFile tempPath, .parser 0 (os.readFile fs tempPath).1 debug] ++
        (parseSingboxConfig c (os.readFile fs tempPath).1 debug).trace ++
        [.printf (.parserSuccess 0)],
      by simp, by simp [writeCalls, writeCalls_append, e0],
      by simp [checkCalls, checkCalls_append, e0]⟩
  · subst hw
    exact ⟨[.readFile tempPath, .parser 0 (os.readFile fs tempPath).1 debug] ++
        (parseSingboxConfig c (os.readFile fs tempPath).1 debug).trace ++
        .parser 1 (os.readFile fs tempPath).1 debug ::
        (parseV2rayConfig c (os.readFile fs tempPath).1 debug).trace ++
        [.printf (.parserSuccess 1)],
      by simp, by simp [writeCalls, writeCalls_append, e0, e1],
      by simp [checkCalls, checkCalls_append, e0, e1]⟩
  · subst hw
    exact ⟨[.readFile tempPath, .parser 0 (os.readFile fs tempPath).1 debug] ++
        (parseSingboxConfig c (os.readFile fs tempPath).1 debug).trace ++
        .parser 1 (os.readFile fs tempPath).1 debug ::
        (parseV2rayConfig c (os.readFile fs tempPath).1 debug).trace ++
        .parser 2 (os.readFile fs tempPath).1 debug ::
        (parseClashConfig c (os.readFile fs tempPath).1 debug).trace ++
        [.printf (.parserSuccess 2)],
      by simp, by simp [writeCalls, writeCalls_append, e0, e1, e2],
      by simp [checkCalls, checkCalls_append, e0, e1, e2]⟩

/-- The validation is called once, on the output of the first parser that succeeded. -/
theorem ParseConfig_checks_first_success (fs : Φ) (path tempPath : String) (debug : Bool)
    (hread : (os.readFile fs tempPath).2 = none) (k : Nat) (b : Bytes)
    (hfs : firstSuccessAt c (os.readFile fs tempPath).1 debug k b) :
    checkCalls (ParseConfig c os fs path tempPath debug).trace = [toGoString b] := by
  have hc := ParseConfig_cases c os fs path tempPath debug hread
  simp only [] at hc
  rw [firstSuccessAt_cases] at hfs
  rcases hfs with ⟨rfl, g0, rfl⟩ | ⟨rfl, g0, g1, rfl⟩ | ⟨rfl, g0, g1, g2, rfl⟩
  · rcases hc with ⟨h0, h | h⟩ | ⟨h0, _⟩ | ⟨h0, _⟩ | ⟨h0, _⟩
    · exact h.2.2.2.2.1
    · exact h.2.2.2.2.1
    all_goals exact absurd g0 h0
  · rcases hc with ⟨h0, _⟩ | ⟨h0, h1, h | h⟩ | ⟨h0, h1, _⟩ | ⟨h0, h1, _⟩
    · exact absurd h0 g0
    · exact h.2.2.2.2.1
    · exact h.2.2.2.2.1
    all_goals exact absurd g1 h1
  · rcases hc with ⟨h0, _⟩ | ⟨h0, h1, _⟩ | ⟨h0, h1, h2, h | h⟩ | ⟨h0, h1, h2, _⟩
    · exact absurd h0 g0
    · exact absurd h1 g1
    · exact h.2.2.2.2.1
    · exact h.2.2.2.2.1
    · exact absurd g2 h2

theorem libraryCalls_eraseDebug (t : List (Event ε κ σ)) :
    libraryCalls (t.map eraseDebug) = libraryCalls t := by
  induction t with
  | nil => rfl
  | cons e t ih => cases e <;> simp [libraryCalls, eraseDebug, ih]

theorem parserIndices_eraseDebug (t : List (Event ε κ σ)) :
    parserIndices (t.map eraseDebug) = parserIndices t := by
  induction t with
  | nil => rfl
  | cons e t ih =>
    simp only [parserIndices] at ih
    cases e <;> simp [parserIndices, parserCalls, eraseDebug, ih]

/-- The loop does the same for both values of `debug` when the parsers do. -/
theorem parseLoop_debug (fs : Φ) (path : String) (content : Bytes)
    (ps : List (Bytes → Bool → ParserResult ε κ σ))
    (hps : ∀ p ∈ ps, p content true = p content false) (index : Nat) (parseError : Option ε) :
    (parseLoop c os fs path content true ps index parseError).err =
      (parseLoop c os fs path content false ps index parseError).err ∧
    (parseLoop c os fs path content true ps index parseError).fs =
      (parseLoop c os fs path content false ps index parseError).fs ∧
    (parseLoop c os fs path content true ps index parseError).trace.map eraseDebug =
      (parseLoop c os fs path content false ps index parseError).trace.map eraseDebug := by
  induction ps generalizing index parseError with
  | nil => simp [parseLoop]
  | cons p ps ih =>
    have hp := hps p (List.mem_cons_self _ _)
    have ih2 := fun i e => ih (fun q hq => hps q (List.mem_cons_of_mem _ hq)) i e
    simp only [parseLoop, hp]
    cases h : (p content false).err with
    | none =>
      cases hk : c.checkConfig (toGoString (p content false).config) <;> simp [eraseDebug]
    | some e =>
      obtain ⟨i1, i2, i3⟩ := ih2 (index + 1) (some e)
      simp [eraseDebug, i1, i2, i3]

end Aux

/-! ## The claims -/

/-- C1: after a successful read, `ParseConfig` tries the parsers of `configParsers`
(`parseSingboxConfig`, `parseV2rayConfig`, `parseClashConfig`, in this order), each on the
same `(content, debug)`, in increasing position and without a gap; the parser at position
`k` is tried if and only if every parser before it returned an error; the only string handed
to `libbox.CheckConfig` is the output of the first parser that succeeded; and when
`parseSingboxConfig` fails and `parseV2rayConfig` succeeds, `parseClashConfig` is not tried and
`yaml.Unmarshal` is not called. -/
theorem ParseConfig_tries_parsers_in_order (c : Collab ε κ σ) (os : OS ε Φ) (fs : Φ)
    (path tempPath : String) (debug : Bool) (hread : (os.readFile fs tempPath).2 = none) :
    let content := (os.readFile fs tempPath).1
    let out := ParseConfig c os fs path tempPath debug
    configParsers c = [parseSingboxConfig c, parseV2rayConfig c, parseClashConfig c] ∧
    (∃ n, n ≤ 3 ∧ parserCalls out.trace = (List.range n).map (fun k => (k, content, debug))) ∧
    (∀ k, k < 3 → (k ∈ parserIndices out.trace ↔ ∀ j, j < k → failsAt c content debug j)) ∧
    (∀ k b, firstSuccessAt c content debug k b → checkCalls out.trace = [toGoString b]) ∧
    ((parseSingboxConfig c content debug).err ≠ none →
      (parseV2rayConfig c content debug).err = none →
        2 ∉ parserIndices out.trace ∧ ∀ b, Event.yamlUnmarshal b ∉ out.trace) := by
  intro content out
  have hc := ParseConfig_cases c os fs path tempPath debug hread
  simp only [] at hc
  refine ⟨rfl, ?_, ?_, ?_, ?_⟩
  · rcases hc with ⟨_, h | h⟩ | ⟨_, _, h | h⟩ | ⟨_, _, _, h | h⟩ | h
    · exact ⟨1, by omega, h.2.2.2.1⟩
    · exact ⟨1, by omega, h.2.2.2.1⟩
    · exact ⟨2, by omega, h.2.2.2.1⟩
    · exact ⟨2, by omega, h.2.2.2.1⟩
    · exact ⟨3, by omega, h.2.2.2.1⟩
    · exact ⟨3, by omega, h.2.2.2.1⟩
    · exact ⟨3, by omega, h.2.2.2.2.2.1⟩
  · intro k hk
    have f0 := failsAt_zero c content debug
    have f1 := failsAt_one c content debug
    have hall1 : (∀ j, j < 1 → failsAt c content debug j) ↔ failsAt c content debug 0 :=
      ⟨fun h => h 0 (by omega), fun h j hj => by interval_cases j; exact h⟩
    have hall2 : (∀ j, j < 2 → failsAt c content debug j) ↔
        failsAt c content debug 0 ∧ failsAt c content debug 1 :=
      ⟨fun h => ⟨h 0 (by omega), h 1 (by omega)⟩,
        fun h j hj => by interval_cases j; exacts [h.1, h.2]⟩
    have hidx : ∀ n, parserCalls out.trace = (List.range n).map (fun k => (k, content, debug)) →
        parserIndices out.trace = List.range n := by
      intro n hn
      simp [parserIndices, hn, Function.comp_def]
    rcases hc with ⟨h0, h | h⟩ | ⟨h0, h1, h | h⟩ | ⟨h0, h1, h2, h | h⟩ | ⟨h0, h1, h2, h⟩
    all_goals
      first
      | rw [hidx _ h.2.2.2.1]
      | rw [hidx _ h.2.2.1]
      interval_cases k <;> simp [hall1, hall2, f0, f1, *]
  · intro k b hfs
    exact ParseConfig_checks_first_success c os fs path tempPath debug hread k b hfs
  · intro g0 g1
    constructor
    · rcases hc with ⟨h0, _⟩ | ⟨h0, h1, h | h⟩ | ⟨h0, h1, _⟩ | ⟨h0, h1, _⟩
      · exact absurd h0 g0
      · simp [parserIndices, h.2.2.2.1, List.range_succ]
      · simp [parserIndices, h.2.2.2.1, List.range_succ]
      all_goals exact absurd g1 h1
    · intro b hb
      obtain ⟨e0, he0⟩ := Option.ne_none_iff_exists'.1 g0
      have m0 := singbox_trace_mem c content debug (Event.yamlUnmarshal b)
      have m1 := v2ray_trace_mem c content debug (Event.yamlUnmarshal b)
      simp only [out, ParseConfig, hread, configParsers, parseLoop] at hb
      simp only [content] at he0 g1 m0 m1
      rw [he0] at hb
      simp only [g1] at hb
      cases hk : c.checkConfig
          (toGoString (parseV2rayConfig c (os.readFile fs tempPath).1 debug).config) <;>
        simp [hk] at hb <;> rcases hb with hb | hb <;>
        first
        | exact absurd (m0 hb) (by simp)
        | exact absurd (m1 hb) (by simp)

/-- Witness of C1: on the share link `v1` the first parser fails, the second succeeds and
the third is not tried. -/
theorem ParseConfig_tries_parsers_in_order_witness :
    (demoOS.readFile (demoFS "in.txt" [118, 49]) "in.txt").2 = none ∧
    (parseSingboxConfig demoCollab [118, 49] false).err ≠ none ∧
    (parseV2rayConfig demoCollab [118, 49] false).err = none ∧
    parserIndices
      (ParseConfig demoCollab demoOS (demoFS "in.txt" [118, 49]) "out.json" "in.txt" false).trace
      = [0, 1] ∧
    2 ∉ parserIndices
      (ParseConfig demoCollab demoOS (demoFS "in.txt" [118, 49]) "out.json" "in.txt" false).trace :=
  ⟨by decide, by decide, by decide, by decide,
    ((ParseConfig_tries_parsers_in_order demoCollab demoOS (demoFS "in.txt" [118, 49])
      "out.json" "in.txt" false (by decide)).2.2.2.2 (by decide) (by decide)).1⟩

/-- C2: a call of `os.WriteFile` in a run of `ParseConfig` happens only after a successful
read, on the destination `path`, with the output of the first parser that succeeded, which
`libbox.CheckConfig` accepted; these bytes are the only ones validated, the validation comes
right before the write and the write is the last step.  When no write happens the file system
is as before.  Hence when the three parsers fail, or when the first parser to succeed gives an
output that `libbox.CheckConfig` rejects, nothing is written and an error is returned. -/
theorem ParseConfig_writes_only_validated (c : Collab ε κ σ) (os : OS ε Φ) (fs : Φ)
    (path tempPath : String) (debug : Bool) :
    let content := (os.readFile fs tempPath).1
    let out := ParseConfig c os fs path tempPath debug
    (∀ name data perm, (name, data, perm) ∈ writeCalls out.trace →
      (os.readFile fs tempPath).2 = none ∧ name = path ∧
      (∃ k, firstSuccessAt c content debug k data) ∧
      c.checkConfig (toGoString data) = none ∧
      checkCalls out.trace = [toGoString data] ∧
      writeCalls out.trace = [(path, data, 0o777)] ∧
      (∃ pre, out.trace = pre ++ [.checkConfig (toGoString data), .writeFile path data 0o777] ∧
        writeCalls pre = [] ∧ checkCalls pre = []) ∧
      out.fs = (os.writeFile fs path data 0o777).1) ∧
    (writeCalls out.trace = [] → out.fs = fs) ∧
    ((os.readFile fs tempPath).2 = none → (∀ k, k < 3 → failsAt c content debug k) →
      writeCalls out.trace = [] ∧ out.fs = fs ∧ out.err ≠ none) ∧
    ((os.readFile fs tempPath).2 = none → ∀ k b, firstSuccessAt c content debug k b →
      c.checkConfig (toGoString b) ≠ none →
      writeCalls out.trace = [] ∧ out.fs = fs ∧ out.err ≠ none) := by
  intro content out
  cases hread : (os.readFile fs tempPath).2 with
  | some e =>
    have hr := ParseConfig_read_error c os fs path tempPath debug e hread
    simp [out, hr, writeCalls]
  | none =>
    have hc := ParseConfig_cases c os fs path tempPath debug hread
    have hl := ParseConfig_write_is_last c os fs path tempPath debug hread
    simp only [] at hc
    refine ⟨?_, ?_, ?_, ?_⟩
    · intro name data perm hmem
      have key : ∀ r : ParserResult ε κ σ, (∃ k, firstSuccessAt c content debug k r.config) →
          c.checkConfig (toGoString r.config) = none →
          out.fs = (os.writeFile fs path r.config 0o777).1 →
          checkCalls out.trace = [toGoString r.config] →
          writeCalls out.trace = [(path, r.config, 0o777)] →
          (none : Option ε) = none ∧ name = path ∧
            (∃ k, firstSuccessAt c content debug k data) ∧
            c.checkConfig (toGoString data) = none ∧ checkCalls out.trace = [toGoString data] ∧
            writeCalls out.trace = [(path, data, 0o777)] ∧
            (∃ pre, out.trace =
                pre ++ [.checkConfig (toGoString data), .writeFile path data 0o777] ∧
              writeCalls pre = [] ∧ checkCalls pre = []) ∧
            out.fs = (os.writeFile fs path data 0o777).1 := by
        intro r hk hck hfs hcc hwc
        rw [hwc] at hmem
        simp at hmem
        obtain ⟨rfl, rfl, rfl⟩ := hmem
        exact ⟨rfl, rfl, hk, hck, hcc, hwc, hl _ hwc, hfs⟩
      have fc := firstSuccessAt_cases c content debug
      rcases hc with ⟨h0, h | h⟩ | ⟨h0, h1, h | h⟩ | ⟨h0, h1, h2, h | h⟩ | ⟨h0, h1, h2, h⟩
      · rw [h.2.2.2.2.2] at hmem; cases hmem
      · exact key _ ⟨0, (fc 0 _).2 (Or.inl ⟨rfl, h0, rfl⟩)⟩ h.1 h.2.2.1 h.2.2.2.2.1 h.2.2.2.2.2
      · rw [h.2.2.2.2.2] at hmem; cases hmem
      · exact key _ ⟨1, (fc 1 _).2 (Or.inr (Or.inl ⟨rfl, h0, h1, rfl⟩))⟩ h.1 h.2.2.1
          h.2.2.2.2.1 h.2.2.2.2.2
      · rw [h.2.2.2.2.2] at hmem; cases hmem
      · exact key _ ⟨2, (fc 2 _).2 (Or.inr (Or.inr ⟨rfl, h0, h1, h2, rfl⟩))⟩ h.1 h.2.2.1
          h.2.2.2.2.1 h.2.2.2.2.2
      · rw [h.2.2.2.2] at hmem; cases hmem
    · intro hw
      rcases hc with ⟨h0, h | h⟩ | ⟨h0, h1, h | h⟩ | ⟨h0, h1, h2, h | h⟩ | ⟨h0, h1, h2, h⟩
      · exact h.2.2.1
      · rw [h.2.2.2.2.2] at hw; cases hw
      · exact h.2.2.1
      · rw [h.2.2.2.2.2] at hw; cases hw
      · exact h.2.2.1
      · rw [h.2.2.2.2.2] at hw; cases hw
      · exact h.2.1
    · intro _ hall
      have g0 := (failsAt_zero c content debug).1 (hall 0 (by omega))
      have g1 := (failsAt_one c content debug).1 (hall 1 (by omega))
      have g2 := (failsAt_two c content debug).1 (hall 2 (by omega))
      rcases hc with ⟨h0, _⟩ | ⟨_, h1, _⟩ | ⟨_, _, h2, _⟩ | ⟨_, _, _, h⟩
      · exact absurd h0 g0
      · exact absurd h1 g1
      · exact absurd h2 g2
      · exact ⟨h.2.2.2.2, h.2.1, by rw [h.1]; exact g2⟩
    · intro _ k b hfs hrej
      rw [firstSuccessAt_cases] at hfs
      rcases hfs with ⟨rfl, g0, rfl⟩ | ⟨rfl, g0, g1, rfl⟩ | ⟨rfl, g0, g1, g2, rfl⟩
      · rcases hc with ⟨h0, h | h⟩ | ⟨h0, _⟩ | ⟨h0, _⟩ | ⟨h0, _⟩
        · exact ⟨h.2.2.2.2.2, h.2.2.1, by rw [h.2.1]; exact hrej⟩
        · exact absurd h.1 hrej
        all_goals exact absurd g0 h0
      · rcases hc with ⟨h0, _⟩ | ⟨h0, h1, h | h⟩ | ⟨h0, h1, _⟩ | ⟨h0, h1, _⟩
        · exact absurd h0 g0
        · exact ⟨h.2.2.2.2.2, h.2.2.1, by rw [h.2.1]; exact hrej⟩
        · exact absurd h.1 hrej
        all_goals exact absurd g1 h1
      · rcases hc with ⟨h0, _⟩ | ⟨h0, h1, _⟩ | ⟨h0, h1, h2, h | h⟩ | ⟨h0, h1, h2, _⟩
        · exact absurd h0 g0
        · exact absurd h1 g1
        · exact ⟨h.2.2.2.2.2, h.2.2.1, by rw [h.2.1]; exact hrej⟩
        · exact absurd h.1 hrej
        · exact absurd g2 h2

/-- Witness of C2: the document `{!` is decoded by the first parser and rejected by the
validation, and the destination keeps its earlier content. -/
theorem ParseConfig_writes_only_validated_witness :
    (demoOS.readFile (demoFS "in.txt" [123, 33]) "in.txt").2 = none ∧
    firstSuccessAt demoCollab [123, 33] false 0 [123, 33] ∧
    demoCollab.checkConfig (toGoString [123, 33]) ≠ none ∧
    writeCalls
      (ParseConfig demoCollab demoOS (demoFS "in.txt" [123, 33]) "out.json" "in.txt" false).trace
      = [] ∧
    (ParseConfig demoCollab demoOS (demoFS "in.txt" [123, 33]) "out.json" "in.txt" false).fs
      = demoFS "in.txt" [123, 33] ∧
    (ParseConfig demoCollab demoOS (demoFS "in.txt" [123, 33]) "out.json" "in.txt" false).err
      ≠ none :=
  have hf : firstSuccessAt demoCollab [123, 33] false 0 [123, 33] :=
    ⟨fun j hj => absurd hj (Nat.not_lt_zero j), ⟨parseSingboxConfig demoCollab, rfl, by decide, by decide⟩⟩
  ⟨by decide, hf, by decide,
    (ParseConfig_writes_only_validated demoCollab demoOS (demoFS "in.txt" [123, 33])
      "out.json" "in.txt" false).2.2.2 (by decide) 0 [123, 33] hf (by decide)⟩

/-- C3: when the three parsers fail on the content read, `ParseConfig` returns the error of
`parseClashConfig`, the last parser tried; the errors of `parseSingboxConfig` and of
`parseV2rayConfig` have no part in it: with other libraries behind the first two parsers,
failing in another way, and the same error of `parseClashConfig`, the returned error is the
same. -/
theorem ParseConfig_returns_last_parser_error (c : Collab ε κ σ) (os : OS ε Φ) (fs : Φ)
    (path tempPath : String) (debug : Bool) (hread : (os.readFile fs tempPath).2 = none)
    (h0 : (parseSingboxConfig c (os.readFile fs tempPath).1 debug).err ≠ none)
    (h1 : (parseV2rayConfig c (os.readFile fs tempPath).1 debug).err ≠ none)
    (h2 : (parseClashConfig c (os.readFile fs tempPath).1 debug).err ≠ none) :
    (ParseConfig c os fs path tempPath debug).err =
      (parseClashConfig c (os.readFile fs tempPath).1 debug).err ∧
    (ParseConfig c os fs path tempPath debug).err ≠ none ∧
    ∀ c2 : Collab ε κ σ,
      (parseSingboxConfig c2 (os.readFile fs tempPath).1 debug).err ≠ none →
      (parseV2rayConfig c2 (os.readFile fs tempPath).1 debug).err ≠ none →
      (parseClashConfig c2 (os.readFile fs tempPath).1 debug).err =
        (parseClashConfig c (os.readFile fs tempPath).1 debug).err →
      (ParseConfig c2 os fs path tempPath debug).err =
        (ParseConfig c os fs path tempPath debug).err := by
  have key : ∀ d : Collab ε κ σ,
      (parseSingboxConfig d (os.readFile fs tempPath).1 debug).err ≠ none →
      (parseV2rayConfig d (os.readFile fs tempPath).1 debug).err ≠ none →
      (parseClashConfig d (os.readFile fs tempPath).1 debug).err ≠ none →
      (ParseConfig d os fs path tempPath debug).err =
        (parseClashConfig d (os.readFile fs tempPath).1 debug).err := by
    intro d g0 g1 g2
    have hc := ParseConfig_cases d os fs path tempPath debug hread
    simp only [] at hc
    rcases hc with ⟨k0, _⟩ | ⟨_, k1, _⟩ | ⟨_, _, k2, _⟩ | ⟨_, _, _, h⟩
    · exact absurd k0 g0
    · exact absurd k1 g1
    · exact absurd k2 g2
    · exact h.1
  refine ⟨key c h0 h1 h2, by rw [key c h0 h1 h2]; exact h2, ?_⟩
  intro c2 g0 g1 g2
  rw [key c h0 h1 h2, key c2 g0 g1 (by rw [g2]; exact h2), g2]

/-- Witness of C3: the content `x` is refused by the three parsers and the error returned is
the one of the YAML decoder. -/
theorem ParseConfig_returns_last_parser_error_witness :
    (demoOS.readFile (demoFS "in.txt" [120]) "in.txt").2 = none ∧
    (parseSingboxConfig demoCollab [120] false).err = some .notJSON ∧
    (parseV2rayConfig demoCollab [120] false).err = some .notShareLink ∧
    (parseClashConfig demoCollab [120] false).err = some .notYAML ∧
    (ParseConfig demoCollab demoOS (demoFS "in.txt" [120]) "out.json" "in.txt" false).err =
      (parseClashConfig demoCollab (demoOS.readFile (demoFS "in.txt" [120]) "in.txt").1 false).err :=
  ⟨by decide, by decide, by decide, by decide,
    (ParseConfig_returns_last_parser_error demoCollab demoOS (demoFS "in.txt" [120])
      "out.json" "in.txt" false (by decide) (by decide) (by decide) (by decide)).1⟩

/-- C4: `parseSingboxConfig` returns its input unchanged, with no error, when
`option.Options.UnmarshalJSON` succeeds on it, and returns the error of
`option.Options.UnmarshalJSON` with a `nil` slice when it fails.  Hence, when the content read
is decoded by `option.Options.UnmarshalJSON`, passes `libbox.CheckConfig` and the write
succeeds, `ParseConfig` returns no error and the one write it makes puts the bytes read, as
they are, at the destination. -/
theorem parseSingboxConfig_passes_through (c : Collab ε κ σ) (os : OS ε Φ) (fs : Φ)
    (path tempPath : String) (debug : Bool) :
    (∀ content, c.unmarshalJSON content = none →
      (parseSingboxConfig c content debug).config = content ∧
      (parseSingboxConfig c content debug).err = none) ∧
    (∀ content e, c.unmarshalJSON content = some e →
      (parseSingboxConfig c content debug).err = some e ∧
      (parseSingboxConfig c content debug).config = []) ∧
    ((os.readFile fs tempPath).2 = none →
      c.unmarshalJSON (os.readFile fs tempPath).1 = none →
      c.checkConfig (toGoString (os.readFile fs tempPath).1) = none →
      (os.writeFile fs path (os.readFile fs tempPath).1 0o777).2 = none →
      (ParseConfig c os fs path tempPath debug).err = none ∧
      writeCalls (ParseConfig c os fs path tempPath debug).trace =
        [(path, (os.readFile fs tempPath).1, 0o777)] ∧
      checkCalls (ParseConfig c os fs path tempPath debug).trace =
        [toGoString (os.readFile fs tempPath).1] ∧
      (ParseConfig c os fs path tempPath debug).fs =
        (os.writeFile fs path (os.readFile fs tempPath).1 0o777).1) := by
  have pass : ∀ content, c.unmarshalJSON content = none →
      (parseSingboxConfig c content debug).config = content ∧
      (parseSingboxConfig c content debug).err = none := by
    intro content h
    simp [parseSingboxConfig, h]
  refine ⟨pass, ?_, ?_⟩
  · intro content e h
    simp [parseSingboxConfig, h]
  · intro hread hu hck hw
    obtain ⟨pc, pe⟩ := pass _ hu
    have hc := ParseConfig_cases c os fs path tempPath debug hread
    simp only [] at hc
    rw [pc] at hc
    rcases hc with ⟨_, h | h⟩ | ⟨k0, _⟩ | ⟨k0, _⟩ | ⟨k0, _⟩
    · exact absurd hck h.1
    · exact ⟨by rw [h.2.1]; exact hw, h.2.2.2.2.2, h.2.2.2.2.1, h.2.2.1⟩
    all_goals exact absurd pe k0

/-- Witness of C4: the document `{2}` is written to `out.json` as it is. -/
theorem parseSingboxConfig_passes_through_witness :
    (demoOS.readFile (demoFS "in.txt" [123, 50, 125]) "in.txt").2 = none ∧
    (parseSingboxConfig demoCollab [123, 50, 125] false).config = [123, 50, 125] ∧
    (ParseConfig demoCollab demoOS (demoFS "in.txt" [123, 50, 125]) "out.json" "in.txt"
      false).err = none ∧
    fileContent (ParseConfig demoCollab demoOS (demoFS "in.txt" [123, 50, 125]) "out.json"
      "in.txt" false).fs "out.json" = some [123, 50, 125] ∧
    writeCalls (ParseConfig demoCollab demoOS (demoFS "in.txt" [123, 50, 125]) "out.json"
      "in.txt" false).trace =
      [("out.json", (demoOS.readFile (demoFS "in.txt" [123, 50, 125]) "in.txt").1, 0o777)] :=
  ⟨by decide, by decide, by decide, by decide,
    ((parseSingboxConfig_passes_through demoCollab demoOS (demoFS "in.txt" [123, 50, 125])
      "out.json" "in.txt" false).2.2 (by decide) (by decide) (by decide) (by decide)).2.1⟩

/-- C5: after a successful read, when some parser succeeds `libbox.CheckConfig` is called
exactly once, on the whole output of the first parser that succeeded: the bytes read when it
is `parseSingboxConfig`, the converted string when it is `parseV2rayConfig`, and the result of
`convert.Patch` on the template, not the fragment of `convert.Clash2sing`, when it is
`parseClashConfig`.  When no parser succeeds, and when the read fails,
`libbox.CheckConfig` is not called. -/
theorem ParseConfig_validates_exactly_once (c : Collab ε κ σ) (os : OS ε Φ) (fs : Φ)
    (path tempPath : String) (debug : Bool) :
    let content := (os.readFile fs tempPath).1
    let out := ParseConfig c os fs path tempPath debug
    ((os.readFile fs tempPath).2 = none → (∃ k b, succeedsAt c content debug k b) →
      (checkCalls out.trace).length = 1) ∧
    ((os.readFile fs tempPath).2 = none → ∀ k b, firstSuccessAt c content debug k b →
      checkCalls out.trace = [toGoString b] ∧ (checkCalls out.trace).length = 1) ∧
    ((os.readFile fs tempPath).2 = none → (parseSingboxConfig c content debug).err = none →
      checkCalls out.trace = [toGoString content]) ∧
    ((os.readFile fs tempPath).2 = none → (parseSingboxConfig c content debug).err ≠ none →
      (parseV2rayConfig c content debug).err = none →
      checkCalls out.trace = [(c.ray2Singbox (toGoString content)).1]) ∧
    ((os.readFile fs tempPath).2 = none → (parseSingboxConfig c content debug).err ≠ none →
      (parseV2rayConfig c content debug).err ≠ none →
      (parseClashConfig c content debug).err = none →
      checkCalls out.trace = [toGoString (c.patch c.configByte
        (c.clash2sing (c.yamlUnmarshal content c.clashZero).1).1 [] [] []).1]) ∧
    ((os.readFile fs tempPath).2 = none → (∀ k, k < 3 → failsAt c content debug k) →
      checkCalls out.trace = []) ∧
    ((os.readFile fs tempPath).2 ≠ none → checkCalls out.trace = []) := by
  intro content out
  have first : (os.readFile fs tempPath).2 = none → ∀ k b, firstSuccessAt c content debug k b →
      checkCalls out.trace = [toGoString b] := fun hread k b hfs =>
    ParseConfig_checks_first_success c os fs path tempPath debug hread k b hfs
  have fc := firstSuccessAt_cases c content debug
  refine ⟨?_, ?_, ?_, ?_, ?_, ?_, ?_⟩
  · rintro hread ⟨k, b, hs⟩
    obtain ⟨k1, b1, hfs⟩ := firstSuccessAt_of_succeedsAt c content debug k b hs
    rw [first hread k1 b1 hfs]
    rfl
  · intro hread k b hfs
    have := first hread k b hfs
    exact ⟨this, by rw [this]; rfl⟩
  · intro hread h0
    have hcfg : (parseSingboxConfig c content debug).config = content := by
      unfold parseSingboxConfig at h0 ⊢
      split at h0
      · cases h0
      · rfl
    exact first hread 0 content ((fc 0 _).2 (Or.inl ⟨rfl, h0, hcfg⟩))
  · intro hread h0 h1
    have hcfg : (parseV2rayConfig c content debug).config =
        (c.ray2Singbox (toGoString content)).1 := by
      unfold parseV2rayConfig at h1 ⊢
      simp only [] at h1 ⊢
      split at h1
      · cases h1
      · rfl
    exact first hread 1 _ ((fc 1 _).2 (Or.inr (Or.inl ⟨rfl, h0, h1, hcfg⟩)))
  · intro hread h0 h1 h2
    have hcfg : (parseClashConfig c content debug).config =
        (c.patch c.configByte (c.clash2sing (c.yamlUnmarshal content c.clashZero).1).1
          [] [] []).1 := by
      unfold parseClashConfig at h2 ⊢
      simp only [] at h2 ⊢
      split at h2
      · cases h2
      · split at h2
        · cases h2
        · split at h2
          · cases h2
          · rfl
    exact first hread 2 _ ((fc 2 _).2 (Or.inr (Or.inr ⟨rfl, h0, h1, h2, hcfg⟩)))
  · intro hread hall
    have g0 := (failsAt_zero c content debug).1 (hall 0 (by omega))
    have g1 := (failsAt_one c content debug).1 (hall 1 (by omega))
    have g2 := (failsAt_two c content debug).1 (hall 2 (by omega))
    have hc := ParseConfig_cases c os fs path tempPath debug hread
    simp only [] at hc
    rcases hc with ⟨h0, _⟩ | ⟨_, h1, _⟩ | ⟨_, _, h2, _⟩ | ⟨_, _, _, h⟩
    · exact absurd h0 g0
    · exact absurd h1 g1
    · exact absurd h2 g2
    · exact h.2.2.2.1
  · intro hread
    obtain ⟨e, he⟩ := Option.ne_none_iff_exists'.1 hread
    have hr := ParseConfig_read_error c os fs path tempPath debug e he
    simp [out, hr, checkCalls]

/-- Witness of C5: on the rule document `p1` the only string validated is the template
followed by the fragment, `{}p1`. -/
theorem ParseConfig_validates_exactly_once_witness :
    (demoOS.readFile (demoFS "in.txt" [112, 49]) "in.txt").2 = none ∧
    (parseClashConfig demoCollab [112, 49] false).err = none ∧
    checkCalls
      (ParseConfig demoCollab demoOS (demoFS "in.txt" [112, 49]) "out.json" "in.txt" false).trace
      = [[123, 125, 112, 49]] :=
  ⟨by decide, by decide,
    (ParseConfig_validates_exactly_once demoCollab demoOS (demoFS "in.txt" [112, 49])
      "out.json" "in.txt" false).2.2.2.2.1 (by decide) (by decide) (by decide) (by decide)⟩

/-- C6, as stated, fails: on a full disk the document `{2}` is decoded and validated, the call
of `os.WriteFile` truncates `out.json` and then fails, `ParseConfig` returns that error,
and the destination no longer holds what it held before the call. -/
theorem ParseConfig_failed_write_changes_destination :
    (ParseConfig demoCollab fullDiskOS (demoFS "in.txt" [123, 50, 125]) "out.json" "in.txt"
      false).err = some .noSpaceLeft ∧
    fileContent (demoFS "in.txt" [123, 50, 125]) "out.json" = some [123, 49, 125] ∧
    fileContent (ParseConfig demoCollab fullDiskOS (demoFS "in.txt" [123, 50, 125]) "out.json"
      "in.txt" false).fs "out.json" = some [] ∧
    fileContent (ParseConfig demoCollab fullDiskOS (demoFS "in.txt" [123, 50, 125]) "out.json"
      "in.txt" false).fs "out.json" ≠
      fileContent (demoFS "in.txt" [123, 50, 125]) "out.json" := by
  decide

/-- C6, amended: a run of `ParseConfig` that returns an error either failed before the write
(the read failed, or the three parsers failed, or `libbox.CheckConfig` rejected the output of
the first parser that succeeded), and then `os.WriteFile` was not called and the file system
is as it was; or it made its one call of `os.WriteFile`, on the destination and with the
validated bytes, that call returned the error, and the file system is the one that call
left. -/
theorem ParseConfig_error_leaves_destination (c : Collab ε κ σ) (os : OS ε Φ) (fs : Φ)
    (path tempPath : String) (debug : Bool)
    (herr : (ParseConfig c os fs path tempPath debug).err ≠ none) :
    let content := (os.readFile fs tempPath).1
    let out := ParseConfig c os fs path tempPath debug
    (((os.readFile fs tempPath).2 ≠ none ∨
        ((os.readFile fs tempPath).2 = none ∧ ∀ k, k < 3 → failsAt c content debug k) ∨
        ((os.readFile fs tempPath).2 = none ∧
          ∃ k b, firstSuccessAt c content debug k b ∧ c.checkConfig (toGoString b) ≠ none)) ∧
      writeCalls out.trace = [] ∧ out.fs = fs) ∨
    (∃ k data, (os.readFile fs tempPath).2 = none ∧ firstSuccessAt c content debug k data ∧
      c.checkConfig (toGoString data) = none ∧
      writeCalls out.trace = [(path, data, 0o777)] ∧
      (os.writeFile fs path data 0o777).2 ≠ none ∧
      out.err = (os.writeFile fs path data 0o777).2 ∧
      out.fs = (os.writeFile fs path data 0o777).1) := by
  intro content out
  cases hread : (os.readFile fs tempPath).2 with
  | some e =>
    have hr := ParseConfig_read_error c os fs path tempPath debug e hread
    left
    simp [out, hr, writeCalls]
  | none =>
    have hc := ParseConfig_cases c os fs path tempPath debug hread
    have fc := firstSuccessAt_cases c content debug
    simp only [] at hc
    rcases hc with ⟨h0, h | h⟩ | ⟨h0, h1, h | h⟩ | ⟨h0, h1, h2, h | h⟩ | ⟨h0, h1, h2, h⟩
    · left
      exact ⟨Or.inr (Or.inr ⟨rfl, 0, _, (fc 0 _).2 (Or.inl ⟨rfl, h0, rfl⟩), h.1⟩),
        h.2.2.2.2.2, h.2.2.1⟩
    · right
      exact ⟨0, _, rfl, (fc 0 _).2 (Or.inl ⟨rfl, h0, rfl⟩), h.1, h.2.2.2.2.2,
        by rw [← h.2.1]; exact herr, h.2.1, h.2.2.1⟩
    · left
      exact ⟨Or.inr (Or.inr ⟨rfl, 1, _, (fc 1 _).2 (Or.inr (Or.inl ⟨rfl, h0, h1, rfl⟩)), h.1⟩),
        h.2.2.2.2.2, h.2.2.1⟩
    · right
      exact ⟨1, _, rfl, (fc 1 _).2 (Or.inr (Or.inl ⟨rfl, h0, h1, rfl⟩)), h.1, h.2.2.2.2.2,
        by rw [← h.2.1]; exact herr, h.2.1, h.2.2.1⟩
    · left
      exact ⟨Or.inr (Or.inr ⟨rfl, 2, _,
        (fc 2 _).2 (Or.inr (Or.inr ⟨rfl, h0, h1, h2, rfl⟩)), h.1⟩), h.2.2.2.2.2, h.2.2.1⟩
    · right
      exact ⟨2, _, rfl, (fc 2 _).2 (Or.inr (Or.inr ⟨rfl, h0, h1, h2, rfl⟩)), h.1, h.2.2.2.2.2,
        by rw [← h.2.1]; exact herr, h.2.1, h.2.2.1⟩
    · left
      refine ⟨Or.inr (Or.inl ⟨rfl, ?_⟩), h.2.2.2.2, h.2.1⟩
      intro k hk
      interval_cases k
      · exact (failsAt_zero c content debug).2 h0
      · exact (failsAt_one c content debug).2 h1
      · exact (failsAt_two c content debug).2 h2

/-- Witness of C6, amended: the run on a full disk returns an error, and it is the error of
its one call of `os.WriteFile`. -/
theorem ParseConfig_error_leaves_destination_witness :
    (ParseConfig demoCollab fullDiskOS (demoFS "in.txt" [123, 50, 125]) "out.json" "in.txt"
      false).err ≠ none ∧
    ((((fullDiskOS.readFile (demoFS "in.txt" [123, 50, 125]) "in.txt").2 ≠ none ∨
        ((fullDiskOS.readFile (demoFS "in.txt" [123, 50, 125]) "in.txt").2 = none ∧
          ∀ k, k < 3 → failsAt demoCollab
            (fullDiskOS.readFile (demoFS "in.txt" [123, 50, 125]) "in.txt").1 false k) ∨
        ((fullDiskOS.readFile (demoFS "in.txt" [123, 50, 125]) "in.txt").2 = none ∧
          ∃ k b, firstSuccessAt demoCollab
            (fullDiskOS.readFile (demoFS "in.txt" [123, 50, 125]) "in.txt").1 false k b ∧
            demoCollab.checkConfig (toGoString b) ≠ none)) ∧
      writeCalls (ParseConfig demoCollab fullDiskOS (demoFS "in.txt" [123, 50, 125]) "out.json"
        "in.txt" false).trace = [] ∧
      (ParseConfig demoCollab fullDiskOS (demoFS "in.txt" [123, 50, 125]) "out.json" "in.txt"
        false).fs = demoFS "in.txt" [123, 50, 125]) ∨
    (∃ k data, (fullDiskOS.readFile (demoFS "in.txt" [123, 50, 125]) "in.txt").2 = none ∧
      firstSuccessAt demoCollab
        (fullDiskOS.readFile (demoFS "in.txt" [123, 50, 125]) "in.txt").1 false k data ∧
      demoCollab.checkConfig (toGoString data) = none ∧
      writeCalls (ParseConfig demoCollab fullDiskOS (demoFS "in.txt" [123, 50, 125]) "out.json"
        "in.txt" false).trace = [("out.json", data, 0o777)] ∧
      (fullDiskOS.writeFile (demoFS "in.txt" [123, 50, 125]) "out.json" data 0o777).2 ≠ none ∧
      (ParseConfig demoCollab fullDiskOS (demoFS "in.txt" [123, 50, 125]) "out.json" "in.txt"
        false).err =
        (fullDiskOS.writeFile (demoFS "in.txt" [123, 50, 125]) "out.json" data 0o777).2 ∧
      (ParseConfig demoCollab fullDiskOS (demoFS "in.txt" [123, 50, 125]) "out.json" "in.txt"
        false).fs =
        (fullDiskOS.writeFile (demoFS "in.txt" [123, 50, 125]) "out.json" data 0o777).1)) :=
  ⟨by decide,
    ParseConfig_error_leaves_destination demoCollab fullDiskOS (demoFS "in.txt" [123, 50, 125])
      "out.json" "in.txt" false (by decide)⟩

/-- C7, as stated, fails: the document `{!` is decoded by `parseSingboxConfig` and rejected by
`libbox.CheckConfig`; `ParseConfig` returns the validation error, and neither the parser at
position 1 nor the parser at position 2 is tried. -/
theorem ParseConfig_validation_error_no_fallthrough :
    (parseSingboxConfig demoCollab [123, 33] false).err = none ∧
    demoCollab.checkConfig (toGoString (parseSingboxConfig demoCollab [123, 33] false).config) =
      some .invalidConfig ∧
    (ParseConfig demoCollab demoOS (demoFS "in.txt" [123, 33]) "out.json" "in.txt" false).err =
      some .invalidConfig ∧
    parserIndices
      (ParseConfig demoCollab demoOS (demoFS "in.txt" [123, 33]) "out.json" "in.txt" false).trace
      = [0] ∧
    1 ∉ parserIndices
      (ParseConfig demoCollab demoOS (demoFS "in.txt" [123, 33]) "out.json" "in.txt" false).trace ∧
    2 ∉ parserIndices
      (ParseConfig demoCollab demoOS (demoFS "in.txt" [123, 33]) "out.json" "in.txt"
        false).trace := by
  decide

/-- C7, amended: when `parseSingboxConfig` accepts the content read and
`libbox.CheckConfig` rejects it with `e`, `ParseConfig` stops there: it returns `e`, the file
system is as it was, and the run is the read, the first turn of the loop with the call of
`option.Options.UnmarshalJSON`, the line printed and the validation; no other parser is
tried. -/
theorem ParseConfig_stops_on_validation_error (c : Collab ε κ σ) (os : OS ε Φ) (fs : Φ)
    (path tempPath : String) (debug : Bool) (e : ε)
    (hread : (os.readFile fs tempPath).2 = none)
    (hu : c.unmarshalJSON (os.readFile fs tempPath).1 = none)
    (hck : c.checkConfig (toGoString (os.readFile fs tempPath).1) = some e) :
    ParseConfig c os fs path tempPath debug =
      { err := some e, fs := fs,
        trace := [.readFile tempPath, .parser 0 (os.readFile fs tempPath).1 debug,
          .unmarshalJSON (os.readFile fs tempPath).1, .printf (.parserSuccess 0),
          .checkConfig (toGoString (os.readFile fs tempPath).1)] } ∧
    parserIndices (ParseConfig c os fs path tempPath debug).trace = [0] := by
  have h : ParseConfig c os fs path tempPath debug =
      { err := some e, fs := fs,
        trace := [.readFile tempPath, .parser 0 (os.readFile fs tempPath).1 debug,
          .unmarshalJSON (os.readFile fs tempPath).1, .printf (.parserSuccess 0),
          .checkConfig (toGoString (os.readFile fs tempPath).1)] } := by
    simp [ParseConfig, hread, configParsers, parseLoop, parseSingboxConfig, hu, hck]
  refine ⟨h, ?_⟩
  rw [h]
  simp [parserIndices, parserCalls]

/-- Witness of C7, amended: the run on the document `{!`. -/
theorem ParseConfig_stops_on_validation_error_witness :
    (demoOS.readFile (demoFS "in.txt" [123, 33]) "in.txt").2 = none ∧
    demoCollab.unmarshalJSON (demoOS.readFile (demoFS "in.txt" [123, 33]) "in.txt").1 = none ∧
    demoCollab.checkConfig (toGoString (demoOS.readFile (demoFS "in.txt" [123, 33]) "in.txt").1)
      = some .invalidConfig ∧
    parserIndices
      (ParseConfig demoCollab demoOS (demoFS "in.txt" [123, 33]) "out.json" "in.txt" true).trace
      = [0] :=
  ⟨by decide, by decide, by decide,
    (ParseConfig_stops_on_validation_error demoCollab demoOS (demoFS "in.txt" [123, 33])
      "out.json" "in.txt" true .invalidConfig (by decide) (by decide) (by decide)).2⟩

/-- C8: `parseV2rayConfig` returns the string of `ray2sing.Ray2Singbox` as bytes, with no
error, when the converter succeeds, and the error of the converter with a `nil` slice when it
fails.  When `option.Options.UnmarshalJSON` fails on the content read, the converter succeeds
on it and `libbox.CheckConfig` accepts the converted string, the one string validated and the
bytes of the one write are the output of the converter, and the file system is the one that
write leaves.  These bytes differ from the bytes read: `libbox.CheckConfig` decodes its argument
with `option.Options.UnmarshalJSON` and fails when the decoding fails, which is the hypothesis
of the last part and says that the content read, which is not decoded, would not have been
accepted. -/
theorem parseV2rayConfig_converts (c : Collab ε κ σ) (os : OS ε Φ) (fs : Φ)
    (path tempPath : String) (debug : Bool) :
    let content := (os.readFile fs tempPath).1
    let conv := (c.ray2Singbox (toGoString content)).1
    let out := ParseConfig c os fs path tempPath debug
    (∀ b, (c.ray2Singbox (toGoString b)).2 = none →
      (parseV2rayConfig c b debug).config = toBytes (c.ray2Singbox (toGoString b)).1 ∧
      (parseV2rayConfig c b debug).err = none) ∧
    (∀ b e, (c.ray2Singbox (toGoString b)).2 = some e →
      (parseV2rayConfig c b debug).err = some e ∧ (parseV2rayConfig c b debug).config = []) ∧
    ((os.readFile fs tempPath).2 = none →
      c.unmarshalJSON content ≠ none →
      (c.ray2Singbox (toGoString content)).2 = none →
      c.checkConfig conv = none →
      writeCalls out.trace = [(path, toBytes conv, 0o777)] ∧
      checkCalls out.trace = [conv] ∧
      out.err = (os.writeFile fs path (toBytes conv) 0o777).2 ∧
      out.fs = (os.writeFile fs path (toBytes conv) 0o777).1 ∧
      ((∀ s, c.checkConfig s = none → c.unmarshalJSON (toBytes s) = none) →
        toBytes conv ≠ content)) := by
  intro content conv out
  have ok : ∀ b, (c.ray2Singbox (toGoString b)).2 = none →
      (parseV2rayConfig c b debug).config = toBytes (c.ray2Singbox (toGoString b)).1 ∧
      (parseV2rayConfig c b debug).err = none := by
    intro b h
    simp [parseV2rayConfig, h]
  refine ⟨ok, ?_, ?_⟩
  · intro b e h
    simp [parseV2rayConfig, h]
  · intro hread hu hr hck
    obtain ⟨pc, pe⟩ := ok content hr
    have s0 : (parseSingboxConfig c content debug).err ≠ none := by
      obtain ⟨e, he⟩ := Option.ne_none_iff_exists'.1 hu
      simp [parseSingboxConfig, he]
    have hc := ParseConfig_cases c os fs path tempPath debug hread
    simp only [] at hc
    rw [pc] at hc
    have hck2 : c.checkConfig (toGoString (toBytes (c.ray2Singbox (toGoString content)).1)) =
        none := hck
    rcases hc with ⟨h0, _⟩ | ⟨_, _, h | h⟩ | ⟨_, h1, _⟩ | ⟨_, h1, _⟩
    · exact absurd h0 s0
    · exact absurd hck2 h.1
    · refine ⟨h.2.2.2.2.2, h.2.2.2.2.1, h.2.1, h.2.2.1, ?_⟩
      intro hvalid heq
      have := hvalid conv hck
      rw [heq] at this
      exact hu this
    all_goals exact absurd pe h1

/-- Witness of C8: the share link `v1` is converted to `{v1`, which is validated and written,
and differs from the link. -/
theorem parseV2rayConfig_converts_witness :
    (demoOS.readFile (demoFS "in.txt" [118, 49]) "in.txt").2 = none ∧
    demoCollab.unmarshalJSON [118, 49] ≠ none ∧
    (demoCollab.ray2Singbox (toGoString [118, 49])) = ([123, 118, 49], none) ∧
    demoCollab.checkConfig [123, 118, 49] = none ∧
    (∀ s, demoCollab.checkConfig s = none → demoCollab.unmarshalJSON (toBytes s) = none) ∧
    writeCalls
      (ParseConfig demoCollab demoOS (demoFS "in.txt" [118, 49]) "out.json" "in.txt" false).trace
      = [("out.json", [123, 118, 49], 0o777)] ∧
    toBytes (demoCollab.ray2Singbox
      (toGoString (demoOS.readFile (demoFS "in.txt" [118, 49]) "in.txt").1)).1 ≠
      (demoOS.readFile (demoFS "in.txt" [118, 49]) "in.txt").1 :=
  have hvalid : ∀ s, demoCollab.checkConfig s = none →
      demoCollab.unmarshalJSON (toBytes s) = none := by
    intro s h
    simp only [demoCollab] at h ⊢
    split at h
    · cases h
    · assumption
  ⟨by decide, by decide, by decide, by decide, hvalid, by decide,
    ((parseV2rayConfig_converts demoCollab demoOS (demoFS "in.txt" [118, 49])
      "out.json" "in.txt" false).2.2 (by decide) (by decide) (by decide)
      (by decide)).2.2.2.2 hvalid⟩

/-- C9: `parseClashConfig` is `yaml.Unmarshal`, then `convert.Clash2sing` on the decoded
document, then `convert.Patch` of the template `configByte` with the fragment, the empty
strings and `nil`.  It succeeds if and only if the three succeed, and then returns the result
of `convert.Patch`; when one of them fails it returns that error with a `nil` slice and the
later ones are not called.  Every call of `convert.Patch` it makes is on `configByte`,
whatever the input. -/
theorem parseClashConfig_composition (c : Collab ε κ σ) (content : Bytes) (debug : Bool) :
    let u := c.yamlUnmarshal content c.clashZero
    let s := c.clash2sing u.1
    let p := c.patch c.configByte s.1 [] [] []
    let r := parseClashConfig c content debug
    (r.err = none ↔ u.2 = none ∧ s.2 = none ∧ p.2 = none) ∧
    (u.2 = none → s.2 = none → p.2 = none →
      r.config = p.1 ∧ r.err = none ∧
      r.trace = [.yamlUnmarshal content, .clash2sing u.1, .patch c.configByte s.1 [] [] []]) ∧
    (∀ e, u.2 = some e →
      r.err = some e ∧ r.config = [] ∧
      r.trace = [.yamlUnmarshal content, .printf (.clashUnmarshalError e)]) ∧
    (∀ e, u.2 = none → s.2 = some e →
      r.err = some e ∧ r.config = [] ∧
      r.trace = [.yamlUnmarshal content, .clash2sing u.1, .printf (.clashConvertError e)]) ∧
    (∀ e, u.2 = none → s.2 = none → p.2 = some e →
      r.err = some e ∧ r.config = [] ∧
      r.trace = [.yamlUnmarshal content, .clash2sing u.1, .patch c.configByte s.1 [] [] [],
        .printf (.clashPatchError e)]) ∧
    (∀ t f i x l, Event.patch t f i x l ∈ r.trace →
      t = c.configByte ∧ i = [] ∧ x = [] ∧ l = []) := by
  intro u s p r
  simp only [u, s, p, r, parseClashConfig]
  cases hu : (c.yamlUnmarshal content c.clashZero).2 with
  | some e => simp
  | none =>
    cases hs : (c.clash2sing (c.yamlUnmarshal content c.clashZero).1).2 with
    | some e => simp
    | none =>
      cases hp : (c.patch c.configByte
          (c.clash2sing (c.yamlUnmarshal content c.clashZero).1).1 [] [] []).2 with
      | some e =>
        simp
        intros
        simp_all
      | none =>
        simp
        intros
        simp_all

/-- Witness of C9: the rule document `p1` is decoded, converted and patched into the template
`{}`; the document `p#` is decoded and converted, and fails in the patch. -/
theorem parseClashConfig_composition_witness :
    (parseClashConfig demoCollab [112, 49] false).config = [123, 125, 112, 49] ∧
    (parseClashConfig demoCollab [112, 35] false).err = some .cannotPatch ∧
    ((parseClashConfig demoCollab [112, 49] false).err = none ↔
      (demoCollab.yamlUnmarshal [112, 49] demoCollab.clashZero).2 = none ∧
      (demoCollab.clash2sing (demoCollab.yamlUnmarshal [112, 49] demoCollab.clashZero).1).2
        = none ∧
      (demoCollab.patch demoCollab.configByte
        (demoCollab.clash2sing (demoCollab.yamlUnmarshal [112, 49] demoCollab.clashZero).1).1
        [] [] []).2 = none) :=
  ⟨by decide, by decide, (parseClashConfig_composition demoCollab [112, 49] false).1⟩

/-- C10: the value of `debug` changes nothing: each of the three parsers returns the same
result for `true` and for `false`, and the two runs of `ParseConfig` return the same error,
leave the same file system, try the parsers at the same positions, make the same calls of the
libraries, of the validation and of the file operations in the same order, print the same
lines, and have the same trace once the value of `debug` passed to the parsers is left out. -/
theorem ParseConfig_debug_irrelevant (c : Collab ε κ σ) (os : OS ε Φ) (fs : Φ)
    (path tempPath : String) :
    (∀ content, parseSingboxConfig c content true = parseSingboxConfig c content false ∧
      parseV2rayConfig c content true = parseV2rayConfig c content false ∧
      parseClashConfig c content true = parseClashConfig c content false) ∧
    (ParseConfig c os fs path tempPath true).err = (ParseConfig c os fs path tempPath false).err ∧
    (ParseConfig c os fs path tempPath true).fs = (ParseConfig c os fs path tempPath false).fs ∧
    (ParseConfig c os fs path tempPath true).trace.map eraseDebug =
      (ParseConfig c os fs path tempPath false).trace.map eraseDebug ∧
    libraryCalls (ParseConfig c os fs path tempPath true).trace =
      libraryCalls (ParseConfig c os fs path tempPath false).trace ∧
    parserIndices (ParseConfig c os fs path tempPath true).trace =
      parserIndices (ParseConfig c os fs path tempPath false).trace ∧
    checkCalls (ParseConfig c os fs path tempPath true).trace =
      checkCalls (ParseConfig c os fs path tempPath false).trace ∧
    writeCalls (ParseConfig c os fs path tempPath true).trace =
      writeCalls (ParseConfig c os fs path tempPath false).trace := by
  have hp : ∀ content, parseSingboxConfig c content true = parseSingboxConfig c content false ∧
      parseV2rayConfig c content true = parseV2rayConfig c content false ∧
      parseClashConfig c content true = parseClashConfig c content false :=
    fun _ => ⟨rfl, rfl, rfl⟩
  have hps : ∀ q ∈ configParsers c,
      q (os.readFile fs tempPath).1 true = q (os.readFile fs tempPath).1 false := by
    intro q hq
    simp only [configParsers, List.mem_cons, List.mem_singleton, List.not_mem_nil,
      or_false] at hq
    rcases hq with rfl | rfl | rfl <;> rfl
  have hl := parseLoop_debug c os fs path (os.readFile fs tempPath).1 (configParsers c) hps 0 none
  have main : (ParseConfig c os fs path tempPath true).err =
        (ParseConfig c os fs path tempPath false).err ∧
      (ParseConfig c os fs path tempPath true).fs =
        (ParseConfig c os fs path tempPath false).fs ∧
      (ParseConfig c os fs path tempPath true).trace.map eraseDebug =
        (ParseConfig c os fs path tempPath false).trace.map eraseDebug := by
    unfold ParseConfig
    cases hread : (os.readFile fs tempPath).2 with
    | some e => simp [hread]
    | none => simp [hread, hl.1, hl.2.1, hl.2.2, eraseDebug]
  have hcalls : ∀ t : List (Event ε κ σ), checkCalls (t.map eraseDebug) = checkCalls t := by
    intro t
    induction t with
    | nil => rfl
    | cons e t ih => cases e <;> simp [checkCalls, eraseDebug, ih]
  have hwrites : ∀ t : List (Event ε κ σ), writeCalls (t.map eraseDebug) = writeCalls t := by
    intro t
    induction t with
    | nil => rfl
    | cons e t ih => cases e <;> simp [writeCalls, eraseDebug, ih]
  refine ⟨hp, main.1, main.2.1, main.2.2, ?_, ?_, ?_, ?_⟩
  · rw [← libraryCalls_eraseDebug, main.2.2, libraryCalls_eraseDebug]
  · rw [← parserIndices_eraseDebug, main.2.2, parserIndices_eraseDebug]
  · rw [← hcalls, main.2.2, hcalls]
  · rw [← hwrites, main.2.2, hwrites]

end Libcore
